import Mathlib

-- Shallow embedding of the call-center routing engine from
-- `Advanced implementation/queue/queueManager.py` (class `QueueManager`).
--
-- Python `Call` objects are mutable and aliased (the same object can sit in
-- `activeCalls` and in `callQueue`), so calls live in an explicit heap
-- (`QMState.heap`, a list of call records addressed by allocation index) and
-- the registries hold references (indices).  Operators live in a list in pool
-- construction order, mirroring the insertion order of the Python dict built
-- in `QueueManager.__init__` (`.values()` iterates in that order).  Python
-- exceptions are modelled explicitly: inside `handleCommand` they are caught
-- by the surrounding `try/except` and become the generic
-- "Error processing command" response, with all mutations performed before
-- the raise kept (Python does not roll back); inside `handleTimeOut` there is
-- no handler, so a raise aborts the callback (modelled as a `none` response)
-- with prior mutations kept.

namespace QueueApp

/-- Operator lifecycle states.  The source stores them as the strings
"available", "ringing" and "busy" in `Operator.state`. -/
inductive OpState where
  | available
  | ringing
  | busy
  deriving DecidableEq, Repr

/-- Modelled from the spec: the `Call` class (module `Call`) is imported by
`queueManager.py` but its file is missing from the repository.  Per spec §3 a
Call carries its externally supplied `id` and an `assignedOperator` weak
reference; the manager reads `call.answered` (false until answered) and
`call.assignedOperator` (none until assigned), so the constructor initializes
them that way.  `assignedOperator` holds the operator's id (operators are
never created or destroyed, so the id identifies the pool object). -/
structure CallObj where
  id : String
  answered : Bool
  assignedOperator : Option String
  deriving DecidableEq, Repr

/-- Modelled from the spec: the `Operator` class (module `Operator`) is
imported by `queueManager.py` but its file is missing from the repository.
Per spec §3 an operator has a fixed `id`, a `state` that starts Available and
a `currentCall` weak reference (a heap reference here) that starts empty. -/
structure Operator where
  id : String
  state : OpState
  currentCall : Option Nat
  deriving DecidableEq, Repr

/-- A `twisted` `DelayedCall` as stored in `callTimers`: the scheduled
callback arguments (`call.id`, `operator.id`) and whether it has already
fired (`cancel()` on a fired timer raises `AlreadyCalled`). -/
structure TimerObj where
  callId : String
  operatorId : String
  fired : Bool
  deriving DecidableEq, Repr

/-- A decoded command object `{command: ..., id: ...}` as delivered by the
session boundary (`lineReceived` passes the parsed JSON dict to
`handleCommand`).  `command` is `none` when the key is absent. -/
structure Command where
  command : Option String
  id : String
  deriving DecidableEq, Repr

/-- A response value produced by the engine: a single string or an ordered
list of status lines. -/
inductive Response where
  | str : String → Response
  | msgs : List String → Response
  deriving DecidableEq, Repr

/-- The whole mutable state of one `QueueManager` instance.  `heap` holds
every `Call` object ever allocated (index = allocation order); `activeCalls`
and `callTimers` are the manager's dicts as association lists; `callQueue`
holds references into the heap. -/
structure QMState where
  heap : List CallObj
  operators : List Operator
  callQueue : List Nat
  activeCalls : List (String × Nat)
  callTimers : List (String × TimerObj)
  deriving DecidableEq, Repr

/-- Dict lookup (`d.get(k)` / `d[k]`). -/
def lookupKey {α : Type} : List (String × α) → String → Option α
  | [], _ => none
  | (k, v) :: rest, key => if k = key then some v else lookupKey rest key

/-- Dict store `d[k] = v`: overwrite in place if the key exists, else append
(Python dicts keep insertion order). -/
def insertKey {α : Type} : List (String × α) → String → α → List (String × α)
  | [], key, v => [(key, v)]
  | (k, w) :: rest, key, v =>
      if k = key then (k, v) :: rest else (k, w) :: insertKey rest key v

/-- Dict deletion `del d[k]` (all call sites in the source delete a key that
is known to be present). -/
def eraseKey {α : Type} : List (String × α) → String → List (String × α)
  | [], _ => []
  | (k, v) :: rest, key => if k = key then rest else (k, v) :: eraseKey rest key

/-- In-place update of the value stored under a key. -/
def updateKey {α : Type} : List (String × α) → String → (α → α) → List (String × α)
  | [], _, _ => []
  | (k, v) :: rest, key, f =>
      if k = key then (k, f v) :: rest else (k, v) :: updateKey rest key f

/-- Number of entries stored under a key. -/
def countKey {α : Type} : List (String × α) → String → Nat
  | [], _ => 0
  | (k, _) :: rest, key => (if k = key then 1 else 0) + countKey rest key

/-- Operator-pool lookup `self.operators.get(id)`. -/
def findOp : List Operator → String → Option Operator
  | [], _ => none
  | o :: rest, oid => if o.id = oid then some o else findOp rest oid

/-- Mutation of the pool operator with the given id (attribute assignment on
the shared `Operator` object). -/
def updateOp : List Operator → String → (Operator → Operator) → List Operator
  | [], _, _ => []
  | o :: rest, oid, f => if o.id = oid then f o :: rest else o :: updateOp rest oid f

/-- Heap read through a call reference. -/
def getRef : List CallObj → Nat → Option CallObj
  | [], _ => none
  | c :: _, 0 => some c
  | _ :: rest, n + 1 => getRef rest n

/-- Heap write through a call reference (attribute assignment on the shared
`Call` object). -/
def setRef : List CallObj → Nat → CallObj → List CallObj
  | [], _, _ => []
  | _ :: rest, 0, v => v :: rest
  | c :: rest, n + 1, v => c :: setRef rest n v

/-- Modelled from the spec: constructor of the missing `Call` class, see
`CallObj`. -/
def mkCall (cid : String) : CallObj :=
  { id := cid, answered := false, assignedOperator := none }

/-- Modelled from the spec: constructor of the missing `Operator` class, see
`Operator`. -/
def mkOperator (oid : String) : Operator :=
  { id := oid, state := OpState.available, currentCall := none }

/-- `QueueManager.__init__`: pool of operators "A" and "B" (in that order),
everything else empty. -/
def initState : QMState :=
  { heap := []
    operators := [mkOperator "A", mkOperator "B"]
    callQueue := []
    activeCalls := []
    callTimers := [] }

/-- The generic message produced by the `except` clause of
`handleCommand`. -/
def errorResponse : Response := Response.str "Error processing command"

/-- The `for operator in self.operators.values()` loop of
`assignCallToOperator`: walk the pool in construction order; at the first
operator whose state is "available", set it ringing on the given call
reference and report its id; if none is available, report `none`. -/
def assignScan (ref : Nat) : List Operator → Option (List Operator × String)
  | [] => none
  | o :: rest =>
      if o.state = OpState.available then
        some ({ o with state := OpState.ringing, currentCall := some ref } :: rest, o.id)
      else
        match assignScan ref rest with
        | none => none
        | some (rest2, oid) => some (o :: rest2, oid)

/-- `QueueManager.assignCallToOperator`: give the call to the first available
operator (if any), link both sides, arm a fresh 10-unit timeout under the
call's id (`reactor.callLater` + `self.callTimers[call.id] = timeout`) and
return the "ringing" message; return `none` when no operator is available. -/
def QMState.assignCallToOperator (s : QMState) (ref : Nat) : QMState × Option String :=
  match getRef s.heap ref with
  | none => (s, none)
  | some c =>
      match assignScan ref s.operators with
      | none => (s, none)
      | some (ops2, oid) =>
          ({ s with
              operators := ops2
              heap := setRef s.heap ref { c with assignedOperator := some oid }
              callTimers := insertKey s.callTimers c.id
                { callId := c.id, operatorId := oid, fired := false } },
            some ("Call " ++ c.id ++ " ringing for operator " ++ oid))

/-- `QueueManager.disableTimeOut(operator)`.  The boolean is `true` when the
call raises: on `operator = None` the attribute access
`operator.currentCall` raises `AttributeError`; `cancel()` on an
already-fired `DelayedCall` raises `AlreadyCalled`.  On a normal run the
timer entry under the current call's id (if any) is cancelled and removed. -/
def QMState.disableTimeOut (s : QMState) (op : Option Operator) : QMState × Bool :=
  match op with
  | none => (s, true)
  | some o =>
      match o.currentCall with
      | none => (s, false)
      | some r =>
          match getRef s.heap r with
          | none => (s, true)
          | some c =>
              match lookupKey s.callTimers c.id with
              | none => (s, false)
              | some t =>
                  if t.fired then (s, true)
                  else ({ s with callTimers := eraseKey s.callTimers c.id }, false)

/-- `QueueManager.checkForValidId`: true when the id names an active call or
a pool operator.  The third Python test, `id not in self.callQueue`, compares
the id string against `Call` objects, which is always a non-match, so it
never affects the result and is dropped here. -/
def QMState.checkForValidId (s : QMState) (i : String) : Bool :=
  (lookupKey s.activeCalls i).isSome || (findOp s.operators i).isSome

/-- The `cmd == "call"` branch of `handleCommand`. -/
def QMState.handleCall (s : QMState) (cid : String) : QMState × Option Response :=
  match lookupKey s.activeCalls cid with
  | some _ => (s, some (Response.str ("Call " ++ cid ++ " already exists")))
  | none =>
      let r := s.heap.length
      let s1 := { s with
        heap := s.heap ++ [mkCall cid]
        activeCalls := insertKey s.activeCalls cid r }
      match s1.assignCallToOperator r with
      | (s2, none) =>
          ({ s2 with callQueue := s2.callQueue ++ [r] },
            some (Response.msgs
              ["Call " ++ cid ++ " received", "Call " ++ cid ++ " waiting in queue"]))
      | (s2, some m) =>
          (s2, some (Response.msgs ["Call " ++ cid ++ " received", m]))

/-- The `cmd == "answer"` branch of `handleCommand`.  When the looked-up
operator is `None` (the id named an active call, not an operator),
`disableTimeOut` raises and the `except` clause answers with the generic
error.  When the operator is not ringing the branch falls through and the
function returns Python `None` (no response). -/
def QMState.handleAnswer (s : QMState) (oid : String) : QMState × Option Response :=
  if s.checkForValidId oid = false then
    (s, some (Response.str ("Invalid id: " ++ oid)))
  else
    let op := findOp s.operators oid
    match s.disableTimeOut op with
    | (s1, true) => (s1, some errorResponse)
    | (s1, false) =>
        match op with
        | some o =>
            if o.state = OpState.ringing then
              match o.currentCall with
              | none => (s1, some errorResponse)
              | some r =>
                  match getRef s1.heap r with
                  | none => (s1, some errorResponse)
                  | some c =>
                      ({ s1 with
                          heap := setRef s1.heap r { c with answered := true }
                          operators := updateOp s1.operators o.id
                            (fun x => { x with state := OpState.busy }) },
                        some (Response.str
                          ("Call " ++ c.id ++ " answered by operator " ++ o.id)))
            else (s1, none)
        | none => (s1, none)

/-- The `cmd == "reject"` branch of `handleCommand`.  When the operator is
not ringing, the trailing `return response` reads the never-assigned local
`response`, raising `NameError`, which the `except` clause turns into the
generic error message (state keeps whatever `disableTimeOut` did). -/
def QMState.handleReject (s : QMState) (oid : String) : QMState × Option Response :=
  if s.checkForValidId oid = false then
    (s, some (Response.str ("Invalid id: " ++ oid)))
  else
    let op := findOp s.operators oid
    match s.disableTimeOut op with
    | (s1, true) => (s1, some errorResponse)
    | (s1, false) =>
        match op with
        | some o =>
            if o.state = OpState.ringing then
              match o.currentCall with
              | none => (s1, some errorResponse)
              | some r =>
                  match getRef s1.heap r with
                  | none => (s1, some errorResponse)
                  | some c =>
                      let s2 := { s1 with
                        heap := setRef s1.heap r { c with assignedOperator := none }
                        operators := updateOp s1.operators o.id
                          (fun x => { x with state := OpState.available, currentCall := none }) }
                      let m1 := "Call " ++ c.id ++ " rejected by operator " ++ o.id
                      match s2.assignCallToOperator r with
                      | (s3, none) =>
                          ({ s3 with callQueue := s3.callQueue ++ [r] },
                            some (Response.msgs [m1]))
                      | (s3, some m2) => (s3, some (Response.msgs [m1, m2]))
            else (s1, some errorResponse)
        | none => (s1, some errorResponse)

/-- The `cmd == "hangup"` branch of `handleCommand`.  When the id names an
operator (so `activeCalls.get` yields `None`) the access
`call.assignedOperator` raises; when the call has no assigned operator,
`disableTimeOut(None)` raises; both become the generic error with no
mutation.  Otherwise: cancel the timer, free the operator (the stray
`operator.currentCallId = None` assignment creates an attribute nothing
reads and is not modelled), answer "finished"/"missed", promote the queue
head if any, then delete the call from `activeCalls`. -/
def QMState.handleHangup (s : QMState) (cid : String) : QMState × Option Response :=
  if s.checkForValidId cid = false then
    (s, some (Response.str ("Invalid id: " ++ cid)))
  else
    match lookupKey s.activeCalls cid with
    | none => (s, some errorResponse)
    | some r =>
        match getRef s.heap r with
        | none => (s, some errorResponse)
        | some c =>
            match c.assignedOperator with
            | none => (s, some errorResponse)
            | some oid =>
                match findOp s.operators oid with
                | none => (s, some errorResponse)
                | some o =>
                    match s.disableTimeOut (some o) with
                    | (s1, true) => (s1, some errorResponse)
                    | (s1, false) =>
                        let s2 := { s1 with
                          operators := updateOp s1.operators oid
                            (fun x => { x with state := OpState.available, currentCall := none }) }
                        let m1 :=
                          if c.answered then
                            "Call " ++ cid ++ " finished and operator " ++ oid ++ " available"
                          else "Call " ++ cid ++ " missed"
                        match s2.callQueue with
                        | [] =>
                            ({ s2 with activeCalls := eraseKey s2.activeCalls cid },
                              some (Response.msgs [m1]))
                        | q :: rest =>
                            match QMState.assignCallToOperator { s2 with callQueue := rest } q with
                            | (s3, none) =>
                                ({ s3 with activeCalls := eraseKey s3.activeCalls cid },
                                  some (Response.msgs [m1]))
                            | (s3, some m2) =>
                                ({ s3 with activeCalls := eraseKey s3.activeCalls cid },
                                  some (Response.msgs [m1, m2]))

/-- `QueueManager.handleCommand`: dispatch on the command tag exactly as the
`if/elif` chain does; when no branch matches, the function body ends and
Python returns `None` (no response).  Branch-internal exceptions are caught
by the `try/except` and already folded into the branch functions above. -/
def QMState.handleCommand (s : QMState) (c : Command) : QMState × Option Response :=
  match c.command with
  | none => (s, none)
  | some tag =>
      if tag = "call" then s.handleCall c.id
      else if tag = "answer" then s.handleAnswer c.id
      else if tag = "reject" then s.handleReject c.id
      else if tag = "hangup" then s.handleHangup c.id
      else (s, none)

/-- `QueueManager.handleTimeOut(callId, operatorId)`, the body of the fired
deadline callback.  It runs outside the `try/except` of `handleCommand`, so
a raise aborts it with mutations so far kept; that is modelled by a `none`
response.  Note that it does not remove the `callTimers` entry of the fired
timer.  The final `self.currentClient.sendLine(...)` is session-boundary
transport and is not modelled; the returned response is what it would
serialize. -/
def QMState.handleTimeOut (s : QMState) (callId operatorId : String) : QMState × Option Response :=
  let callRef := lookupKey s.activeCalls callId
  match findOp s.operators operatorId with
  | none => (s, none)
  | some _ =>
      let s1 := { s with
        operators := updateOp s.operators operatorId
          (fun x => { x with state := OpState.available, currentCall := none }) }
      match callRef with
      | none => (s1, none)
      | some r =>
          match getRef s1.heap r with
          | none => (s1, none)
          | some c =>
              let s2 := { s1 with
                heap := setRef s1.heap r { c with assignedOperator := none }
                activeCalls := eraseKey s1.activeCalls callId }
              let m1 := "Call " ++ callId ++ " ignored by operator " ++ operatorId
              match s2.callQueue with
              | [] => (s2, some (Response.msgs [m1]))
              | q :: rest =>
                  match QMState.assignCallToOperator { s2 with callQueue := rest } q with
                  | (s3, _) =>
                      match getRef s3.heap q with
                      | none => (s3, none)
                      | some qc =>
                          match qc.assignedOperator with
                          | none => (s3, none)
                          | some aid =>
                              (s3, some (Response.msgs
                                [m1, "Call " ++ qc.id ++ " ringing for operator " ++ aid]))

/-- The reactor firing the armed deadline for `callId`: the `DelayedCall`
becomes fired (it can no longer be cancelled) and its callback
`handleTimeOut(callId, operatorId)` runs. -/
def QMState.fireTimeOut (s : QMState) (callId operatorId : String) : QMState × Option Response :=
  QMState.handleTimeOut
    { s with callTimers := updateKey s.callTimers callId (fun t => { t with fired := true }) }
    callId operatorId

/-- State after `call(1)` from startup: call 1 rings operator A. -/
def sCall1 : QMState :=
  (initState.handleCommand { command := some "call", id := "1" }).1

/-- State after `call(1)`, `call(2)`: call 2 rings operator B. -/
def sCall12 : QMState :=
  (sCall1.handleCommand { command := some "call", id := "2" }).1

/-- State after `call(1)`, `call(2)`, `call(3)`: call 3 waits in the
queue. -/
def sCall123 : QMState :=
  (sCall12.handleCommand { command := some "call", id := "3" }).1

/-- State after `call(1)`, `call(2)`, `call(3)`, `call(4)`: calls 3 and 4
wait in the queue. -/
def sCall1234 : QMState :=
  (sCall123.handleCommand { command := some "call", id := "4" }).1

/-- State after `call(1)`, `call(2)`, `call(3)`, `answer(A)`: operator A busy
on answered call 1, operator B ringing on call 2, call 3 queued. -/
def sAns1 : QMState :=
  (sCall123.handleCommand { command := some "answer", id := "A" }).1

/-- True when the timer registry has no entry under the key, or a live (not
yet fired) one — the situations in which `disableTimeOut` does not raise. -/
def QMState.timerClean (s : QMState) (k : String) : Bool :=
  match lookupKey s.callTimers k with
  | none => true
  | some t => !t.fired

lemma lookupKey_insertKey_self {α : Type} (l : List (String × α)) (k : String) (v : α) :
    lookupKey (insertKey l k v) k = some v := by
  induction l with
  | nil => simp [insertKey, lookupKey]
  | cons p rest ih =>
      obtain ⟨k', w⟩ := p
      by_cases h : k' = k
      · simp [insertKey, h, lookupKey]
      · simp [insertKey, h, lookupKey, ih]

lemma lookupKey_insertKey_ne {α : Type} (l : List (String × α)) (k k' : String) (v : α)
    (h : k' ≠ k) : lookupKey (insertKey l k v) k' = lookupKey l k' := by
  induction l with
  | nil => simp [insertKey, lookupKey, Ne.symm h]
  | cons p rest ih =>
      obtain ⟨k'', w⟩ := p
      by_cases h2 : k'' = k
      · subst h2
        simp [insertKey, lookupKey, Ne.symm h]
      · simp [insertKey, h2, lookupKey, ih]

lemma lookupKey_updateKey_self {α : Type} (l : List (String × α)) (k : String) (f : α → α) :
    lookupKey (updateKey l k f) k = (lookupKey l k).map f := by
  induction l with
  | nil => simp [updateKey, lookupKey]
  | cons p rest ih =>
      obtain ⟨k', w⟩ := p
      by_cases h : k' = k
      · simp [updateKey, h, lookupKey]
      · simp [updateKey, h, lookupKey, ih]

lemma lookupKey_updateKey_ne {α : Type} (l : List (String × α)) (k k' : String) (f : α → α)
    (h : k' ≠ k) : lookupKey (updateKey l k f) k' = lookupKey l k' := by
  induction l with
  | nil => simp [updateKey, lookupKey]
  | cons p rest ih =>
      obtain ⟨k'', w⟩ := p
      by_cases h2 : k'' = k
      · subst h2
        simp [updateKey, lookupKey, Ne.symm h]
      · simp [updateKey, h2, lookupKey, ih]

lemma lookupKey_eq_none_of_countKey_zero {α : Type} (l : List (String × α)) (k : String)
    (h : countKey l k = 0) : lookupKey l k = none := by
  induction l with
  | nil => simp [lookupKey]
  | cons p rest ih =>
      obtain ⟨k', w⟩ := p
      by_cases h2 : k' = k
      · exfalso
        simp [countKey, h2] at h
      · simp [countKey, h2] at h
        simp [lookupKey, h2, ih h]

lemma lookupKey_eraseKey_self {α : Type} (l : List (String × α)) (k : String)
    (h : countKey l k ≤ 1) : lookupKey (eraseKey l k) k = none := by
  induction l with
  | nil => simp [eraseKey, lookupKey]
  | cons p rest ih =>
      obtain ⟨k', w⟩ := p
      by_cases h2 : k' = k
      · simp [countKey, h2] at h
        have h0 : countKey rest k = 0 := by omega
        simp [eraseKey, h2, lookupKey_eq_none_of_countKey_zero rest k h0]
      · simp [countKey, h2] at h
        simp [eraseKey, h2, lookupKey, ih h]

lemma lookupKey_eraseKey_ne {α : Type} (l : List (String × α)) (k k' : String)
    (h : k' ≠ k) : lookupKey (eraseKey l k) k' = lookupKey l k' := by
  induction l with
  | nil => simp [eraseKey, lookupKey]
  | cons p rest ih =>
      obtain ⟨k'', w⟩ := p
      by_cases h2 : k'' = k
      · subst h2
        simp [eraseKey, lookupKey, Ne.symm h]
      · simp [eraseKey, h2, lookupKey, ih]

lemma getRef_setRef_self (h : List CallObj) (r : Nat) (c v : CallObj)
    (hr : getRef h r = some c) : getRef (setRef h r v) r = some v := by
  induction h generalizing r with
  | nil => simp [getRef] at hr
  | cons a rest ih =>
      cases r with
      | zero => simp [setRef, getRef]
      | succ n => simpa [setRef, getRef] using ih n (by simpa [getRef] using hr)

lemma getRef_setRef_ne (h : List CallObj) (r r' : Nat) (v : CallObj)
    (hne : r ≠ r') : getRef (setRef h r v) r' = getRef h r' := by
  induction h generalizing r r' with
  | nil => simp [setRef]
  | cons a rest ih =>
      cases r with
      | zero =>
          cases r' with
          | zero => exact absurd rfl hne
          | succ m => simp [setRef, getRef]
      | succ n =>
          cases r' with
          | zero => simp [setRef, getRef]
          | succ m => simpa [setRef, getRef] using ih n m (by omega)

lemma findOp_id (ops : List Operator) (oid : String) (o : Operator)
    (h : findOp ops oid = some o) : o.id = oid := by
  induction ops with
  | nil => simp [findOp] at h
  | cons a rest ih =>
      by_cases h2 : a.id = oid
      · simp [findOp, h2] at h
        rw [← h]
        exact h2
      · simp [findOp, h2] at h
        exact ih h

lemma findOp_updateOp_self (ops : List Operator) (oid : String) (f : Operator → Operator)
    (o : Operator) (h : findOp ops oid = some o) (hid : (f o).id = o.id) :
    findOp (updateOp ops oid f) oid = some (f o) := by
  induction ops with
  | nil => simp [findOp] at h
  | cons a rest ih =>
      by_cases h2 : a.id = oid
      · simp [findOp, h2] at h
        subst h
        simp [updateOp, h2, findOp, hid.trans h2]
      · simp [findOp, h2] at h
        simp [updateOp, h2, findOp, ih h]

lemma mem_updateOp (ops : List Operator) (oid : String) (f : Operator → Operator)
    (o : Operator) (h : findOp ops oid = some o) : f o ∈ updateOp ops oid f := by
  induction ops with
  | nil => simp [findOp] at h
  | cons a rest ih =>
      by_cases h2 : a.id = oid
      · simp [findOp, h2] at h
        subst h
        simp [updateOp, h2]
      · simp [findOp, h2] at h
        simp [updateOp, h2]
        exact Or.inr (ih h)

lemma assignScan_first (ref : Nat) (pre : List Operator) (o : Operator) (rest : List Operator)
    (hpre : ∀ p ∈ pre, p.state ≠ OpState.available) (ho : o.state = OpState.available) :
    assignScan ref (pre ++ o :: rest) =
      some (pre ++ { o with state := OpState.ringing, currentCall := some ref } :: rest, o.id) := by
  induction pre with
  | nil => simp [assignScan, ho]
  | cons p ps ih =>
      have hp : p.state ≠ OpState.available := hpre p (List.mem_cons_self p ps)
      have ih2 := ih (fun x hx => hpre x (List.mem_cons_of_mem p hx))
      simp [assignScan, hp, ih2]

lemma assignScan_succeeds (ref : Nat) (ops : List Operator) (o : Operator)
    (hmem : o ∈ ops) (ho : o.state = OpState.available) :
    ∃ ops2 oid, assignScan ref ops = some (ops2, oid) := by
  induction ops with
  | nil => simp at hmem
  | cons a rest ih =>
      by_cases ha : a.state = OpState.available
      · exact ⟨{ a with state := OpState.ringing, currentCall := some ref } :: rest, a.id,
          by simp [assignScan, ha]⟩
      · have hmem2 : o ∈ rest := by
          rcases List.mem_cons.mp hmem with h | h
          · exact absurd (h ▸ ho) ha
          · exact h
        obtain ⟨ops2, oid, hscan⟩ := ih hmem2
        exact ⟨a :: ops2, oid, by simp [assignScan, ha, hscan]⟩

lemma assignScan_after_free (ref : Nat) (oid : String) (g : Operator → Operator)
    (ops : List Operator) (o : Operator)
    (h : findOp ops oid = some o)
    (hother : ∀ p ∈ ops, p.id ≠ oid → p.state ≠ OpState.available)
    (hgs : (g o).state = OpState.available) (hgid : (g o).id = o.id) :
    ∃ ops2, assignScan ref (updateOp ops oid g) = some (ops2, oid) ∧
      findOp ops2 oid = some { g o with state := OpState.ringing, currentCall := some ref } := by
  induction ops with
  | nil => simp [findOp] at h
  | cons a rest ih =>
      by_cases h2 : a.id = oid
      · have ho : o = a := by
          have h' := h
          simp [findOp, h2] at h'
          exact h'.symm
        rw [ho] at hgs hgid ⊢
        refine ⟨{ g a with state := OpState.ringing, currentCall := some ref } :: rest, ?_, ?_⟩
        · simp [updateOp, h2, assignScan, hgs, hgid.trans h2]
        · simp [findOp, hgid.trans h2]
      · simp [findOp, h2] at h
        have ha : a.state ≠ OpState.available := hother a (List.mem_cons_self a rest) h2
        obtain ⟨ops2, hscan, hfind⟩ :=
          ih h (fun x hx hne => hother x (List.mem_cons_of_mem a hx) hne)
        exact ⟨a :: ops2, by simp [updateOp, h2, assignScan, ha, hscan],
          by simp [findOp, h2, hfind]⟩

lemma disableTimeOut_nocall (s : QMState) (o : Operator) (h : o.currentCall = none) :
    s.disableTimeOut (some o) = (s, false) := by
  simp [QMState.disableTimeOut, h]

lemma disableTimeOut_clean (s : QMState) (o : Operator) (r : Nat) (c : CallObj)
    (hCC : o.currentCall = some r) (hC : getRef s.heap r = some c)
    (hclean : s.timerClean c.id = true) :
    ∃ s1, s.disableTimeOut (some o) = (s1, false) ∧ s1.heap = s.heap ∧
      s1.operators = s.operators ∧ s1.callQueue = s.callQueue ∧
      s1.activeCalls = s.activeCalls ∧
      (countKey s.callTimers c.id ≤ 1 → lookupKey s1.callTimers c.id = none) ∧
      (∀ k, k ≠ c.id → lookupKey s1.callTimers k = lookupKey s.callTimers k) := by
  cases hcase : lookupKey s.callTimers c.id with
  | none =>
      exact ⟨s, by simp [QMState.disableTimeOut, hCC, hC, hcase], rfl, rfl, rfl, rfl,
        fun _ => hcase, fun _ _ => rfl⟩
  | some t =>
      have ht : t.fired = false := by
        simpa [QMState.timerClean, hcase] using hclean
      refine ⟨{ s with callTimers := eraseKey s.callTimers c.id },
        by simp [QMState.disableTimeOut, hCC, hC, hcase, ht],
        rfl, rfl, rfl, rfl, fun hcount => lookupKey_eraseKey_self _ _ hcount,
        fun k hk => lookupKey_eraseKey_ne _ _ _ hk⟩

lemma checkForValidId_of_active (s : QMState) (i : String) (r : Nat)
    (h : lookupKey s.activeCalls i = some r) : s.checkForValidId i = true := by
  simp [QMState.checkForValidId, h]

lemma checkForValidId_of_op (s : QMState) (i : String) (o : Operator)
    (h : findOp s.operators i = some o) : s.checkForValidId i = true := by
  simp [QMState.checkForValidId, h]

lemma handleHangup_eq_nil (s s1 : QMState) (cid : String) (r : Nat) (c : CallObj)
    (oid : String) (o : Operator)
    (hA : lookupKey s.activeCalls cid = some r)
    (hC : getRef s.heap r = some c)
    (hAO : c.assignedOperator = some oid)
    (hO : findOp s.operators oid = some o)
    (hD : s.disableTimeOut (some o) = (s1, false))
    (hh : s1.heap = s.heap) (hop : s1.operators = s.operators)
    (hq : s1.callQueue = s.callQueue) (hac : s1.activeCalls = s.activeCalls)
    (hqe : s.callQueue = []) :
    s.handleCommand { command := some "hangup", id := cid } =
      ({ heap := s.heap
         operators := updateOp s.operators oid
           (fun x => { x with state := OpState.available, currentCall := none })
         callQueue := []
         activeCalls := eraseKey s.activeCalls cid
         callTimers := s1.callTimers },
        some (Response.msgs
          [if c.answered then
             "Call " ++ cid ++ " finished and operator " ++ oid ++ " available"
           else "Call " ++ cid ++ " missed"])) := by
  have hvalid := checkForValidId_of_active s cid r hA
  simp only [QMState.handleCommand, QMState.handleHangup, hvalid, hA, hC, hAO, hO, hD,
    Bool.true_eq_false, if_false]
  rw [hop, hq, hac, hh, hqe]
  simp

lemma handleHangup_eq_cons (s s1 : QMState) (cid : String) (r : Nat) (c : CallObj)
    (oid : String) (o : Operator) (q : Nat) (rest : List Nat) (qc : CallObj)
    (ops2 : List Operator) (aid : String)
    (hA : lookupKey s.activeCalls cid = some r)
    (hC : getRef s.heap r = some c)
    (hAO : c.assignedOperator = some oid)
    (hO : findOp s.operators oid = some o)
    (hD : s.disableTimeOut (some o) = (s1, false))
    (hh : s1.heap = s.heap) (hop : s1.operators = s.operators)
    (hq : s1.callQueue = s.callQueue) (hac : s1.activeCalls = s.activeCalls)
    (hqc : s.callQueue = q :: rest)
    (hgq : getRef s.heap q = some qc)
    (hscan : assignScan q (updateOp s.operators oid
        (fun x => { x with state := OpState.available, currentCall := none })) =
      some (ops2, aid)) :
    s.handleCommand { command := some "hangup", id := cid } =
      ({ heap := setRef s.heap q { qc with assignedOperator := some aid }
         operators := ops2
         callQueue := rest
         activeCalls := eraseKey s.activeCalls cid
         callTimers := insertKey s1.callTimers qc.id
           { callId := qc.id, operatorId := aid, fired := false } },
        some (Response.msgs
          [if c.answered then
             "Call " ++ cid ++ " finished and operator " ++ oid ++ " available"
           else "Call " ++ cid ++ " missed",
           "Call " ++ qc.id ++ " ringing for operator " ++ aid])) := by
  have hvalid := checkForValidId_of_active s cid r hA
  simp only [QMState.handleCommand, QMState.handleHangup, hvalid, hA, hC, hAO, hO, hD,
    Bool.true_eq_false, if_false]
  rw [hop, hq, hac, hh, hqc]
  simp only [QMState.assignCallToOperator, hgq, hscan]
  simp

lemma handleTimeOut_eq_nil (s : QMState) (callId operatorId : String) (r : Nat)
    (c : CallObj) (o : Operator)
    (hA : lookupKey s.activeCalls callId = some r)
    (hC : getRef s.heap r = some c)
    (hO : findOp s.operators operatorId = some o)
    (hqe : s.callQueue = []) :
    s.handleTimeOut callId operatorId =
      ({ heap := setRef s.heap r { c with assignedOperator := none }
         operators := updateOp s.operators operatorId
           (fun x => { x with state := OpState.available, currentCall := none })
         callQueue := []
         activeCalls := eraseKey s.activeCalls callId
         callTimers := s.callTimers },
        some (Response.msgs
          ["Call " ++ callId ++ " ignored by operator " ++ operatorId])) := by
  simp only [QMState.handleTimeOut, hA, hC, hO, hqe]

lemma handleTimeOut_eq_cons (s : QMState) (callId operatorId : String) (r : Nat)
    (c : CallObj) (o : Operator) (q : Nat) (rest : List Nat) (qc : CallObj)
    (ops2 : List Operator) (aid : String)
    (hA : lookupKey s.activeCalls callId = some r)
    (hC : getRef s.heap r = some c)
    (hO : findOp s.operators operatorId = some o)
    (hqc : s.callQueue = q :: rest)
    (hgq : getRef s.heap q = some qc)
    (hqr : q ≠ r)
    (hscan : assignScan q (updateOp s.operators operatorId
        (fun x => { x with state := OpState.available, currentCall := none })) =
      some (ops2, aid)) :
    s.handleTimeOut callId operatorId =
      ({ heap := setRef (setRef s.heap r { c with assignedOperator := none }) q
           { qc with assignedOperator := some aid }
         operators := ops2
         callQueue := rest
         activeCalls := eraseKey s.activeCalls callId
         callTimers := insertKey s.callTimers qc.id
           { callId := qc.id, operatorId := aid, fired := false } },
        some (Response.msgs
          ["Call " ++ callId ++ " ignored by operator " ++ operatorId,
           "Call " ++ qc.id ++ " ringing for operator " ++ aid])) := by
  have hgq2 : getRef (setRef s.heap r { c with assignedOperator := none }) q = some qc := by
    rw [getRef_setRef_ne s.heap r q _ hqr.symm]
    exact hgq
  have hgq3 : getRef (setRef (setRef s.heap r { c with assignedOperator := none }) q
      { qc with assignedOperator := some aid }) q =
      some { qc with assignedOperator := some aid } :=
    getRef_setRef_self _ _ _ _ hgq2
  simp only [QMState.handleTimeOut, hA, hC, hO, hqc]
  simp only [QMState.assignCallToOperator, hgq2, hscan, hgq3]

/-- C2: refuting evaluation at the failing input.  From startup, `call(1)`
rings operator A; then the ring timeout for (call 1, operator A) fires and is
fully processed.  The operator has left the Ringing state (it is Available
again) and call 1 is gone from the active registry, yet the Timer Registry
still holds the entry for call 1 (now pointing at the already-fired timer):
`handleTimeOut` never deletes `self.callTimers[callId]`, contradicting the
claim that the entry is removed as part of processing the timeout event. -/
theorem c2_timeout_keeps_timer_entry :
    lookupKey (sCall1.fireTimeOut "1" "A").1.callTimers "1" =
      some { callId := "1", operatorId := "A", fired := true } ∧
    findOp (sCall1.fireTimeOut "1" "A").1.operators "A" =
      some { id := "A", state := OpState.available, currentCall := none } ∧
    lookupKey (sCall1.fireTimeOut "1" "A").1.activeCalls "1" = none :=
  ⟨by decide, by decide, by decide⟩

/-- C5: `call(X)` when `X` already names an active call fails with the
duplicate-id message ("Call X already exists", the engine's `DuplicateId`
rendering) and leaves the whole state unchanged; concretely, after `call(1)`
followed by a second `call(1)` from startup, the active registry still holds
exactly one entry for id "1". -/
theorem c5_duplicate_call_id :
    (∀ (s : QMState) (x : String) (r : Nat), lookupKey s.activeCalls x = some r →
      s.handleCommand { command := some "call", id := x } =
        (s, some (Response.str ("Call " ++ x ++ " already exists")))) ∧
    ((sCall1.handleCommand { command := some "call", id := "1" }).2 =
        some (Response.str "Call 1 already exists") ∧
      (sCall1.handleCommand { command := some "call", id := "1" }).1 = sCall1 ∧
      countKey (sCall1.handleCommand { command := some "call", id := "1" }).1.activeCalls "1"
        = 1) := by
  constructor
  · intro s x r h
    simp [QMState.handleCommand, QMState.handleCall, h]
  · exact ⟨by decide, by decide, by decide⟩

/-- C5 witness: the duplicate-call branch evaluated at the concrete state
reached by `call(1)` from startup. -/
theorem c5_duplicate_call_id_witness :
    sCall1.handleCommand { command := some "call", id := "1" } =
      (sCall1, some (Response.str ("Call " ++ "1" ++ " already exists"))) :=
  c5_duplicate_call_id.1 sCall1 "1" 0 (by decide)

/-- C7: refutation at a concrete input.  A command object with the unknown
tag "transfer" produces no response at all (`handleCommand` falls through
and returns Python `None`), not the generic "Error processing command"
message the claim asserts. -/
theorem c7_unknown_command_cex :
    initState.handleCommand { command := some "transfer", id := "1" } = (initState, none) ∧
    (initState.handleCommand { command := some "transfer", id := "1" }).2 ≠
      some (Response.str "Error processing command") :=
  ⟨by decide, by decide⟩

/-- C7 amended: for every state and every command object whose tag is not
one of call/answer/reject/hangup (including a missing tag), the engine
mutates nothing and returns no response (the generic error message is
produced only when a recognized branch raises). -/
theorem c7_unknown_command_no_response (s : QMState) (tag : Option String) (i : String)
    (h1 : tag ≠ some "call") (h2 : tag ≠ some "answer") (h3 : tag ≠ some "reject")
    (h4 : tag ≠ some "hangup") :
    s.handleCommand { command := tag, id := i } = (s, none) := by
  cases tag with
  | none => rfl
  | some t =>
      have g1 : ¬ t = "call" := fun h => h1 (by rw [h])
      have g2 : ¬ t = "answer" := fun h => h2 (by rw [h])
      have g3 : ¬ t = "reject" := fun h => h3 (by rw [h])
      have g4 : ¬ t = "hangup" := fun h => h4 (by rw [h])
      simp [QMState.handleCommand, g1, g2, g3, g4]

/-- C7 witness: the amended no-response behavior at a concrete unknown
command. -/
theorem c7_unknown_command_no_response_witness :
    initState.handleCommand { command := some "status", id := "9" } = (initState, none) :=
  c7_unknown_command_no_response initState (some "status") "9"
    (by decide) (by decide) (by decide) (by decide)

/-- C9: refutation at a concrete input.  From startup, `call(1)` rings A,
`call(2)` rings B, `call(3)` waits in the queue (heap reference 2).  Hanging
up the queued call 3 does not delete it from the active-call registry as the
claim states: `disableTimeOut(None)` raises before any mutation, the command
answers with the generic error, and call 3 stays both active and queued. -/
theorem c9_hangup_queued_cex :
    lookupKey (sCall123.handleCommand { command := some "hangup", id := "3" }).1.activeCalls
      "3" = some 2 ∧
    (sCall123.handleCommand { command := some "hangup", id := "3" }).1.callQueue = [2] ∧
    (sCall123.handleCommand { command := some "hangup", id := "3" }).2 =
      some (Response.str "Error processing command") :=
  ⟨by decide, by decide, by decide⟩

/-- C9 amended: `hangup` on an active call that has no assigned operator (a
call waiting in the queue) is a caught `AttributeError`: it returns the
generic error message and mutates nothing at all — in particular the call is
neither removed from the active-call registry nor from the Wait Queue. -/
theorem c9_hangup_unassigned_no_op (s : QMState) (cid : String) (r : Nat) (c : CallObj)
    (hA : lookupKey s.activeCalls cid = some r) (hC : getRef s.heap r = some c)
    (hAO : c.assignedOperator = none) :
    s.handleCommand { command := some "hangup", id := cid } = (s, some errorResponse) := by
  have hvalid := checkForValidId_of_active s cid r hA
  simp [QMState.handleCommand, QMState.handleHangup, hvalid, hA, hC, hAO]

/-- C9 witness: the amended no-op error behavior evaluated on the hangup of
queued call 3. -/
theorem c9_hangup_unassigned_no_op_witness :
    sCall123.handleCommand { command := some "hangup", id := "3" } =
      (sCall123, some errorResponse) :=
  c9_hangup_unassigned_no_op sCall123 "3" 2
    { id := "3", answered := false, assignedOperator := none }
    (by decide) (by decide) (by decide)

/-- C4: refutation at a concrete input.  At startup operator A exists and is
Available (not Ringing).  `reject(A)` is not a silent no-op: the branch falls
through to `return response` with the local `response` never assigned, the
`NameError` is caught, and the engine returns the generic
"Error processing command" — an error result, not an empty/ignored one. -/
theorem c4_reject_not_silent_cex :
    initState.handleCommand { command := some "reject", id := "A" } =
      (initState, some (Response.str "Error processing command")) ∧
    (initState.handleCommand { command := some "reject", id := "A" }).2 ≠ none :=
  ⟨by decide, by decide⟩

/-- C4 amended: when the subject operator exists, is not Ringing, and its
timer disarm finds nothing to cancel (true of every reachable such state),
`answer(operatorId)` is a silent no-op — no response, no mutation — while
`reject(operatorId)` also mutates nothing but returns the generic
"Error processing command" message (an unbound-local `NameError`), so only
`answer` matches the claimed silent absorption. -/
theorem c4_answer_silent_reject_error (s : QMState) (oid : String) (o : Operator)
    (hO : findOp s.operators oid = some o) (hNR : o.state ≠ OpState.ringing)
    (hD : s.disableTimeOut (some o) = (s, false)) :
    s.handleCommand { command := some "answer", id := oid } = (s, none) ∧
    s.handleCommand { command := some "reject", id := oid } = (s, some errorResponse) := by
  have hvalid := checkForValidId_of_op s oid o hO
  constructor
  · simp [QMState.handleCommand, QMState.handleAnswer, hvalid, hO, hD, hNR]
  · simp [QMState.handleCommand, QMState.handleReject, hvalid, hO, hD, hNR]

/-- C4 witness: the amended behavior evaluated for the Available operator A
at startup. -/
theorem c4_answer_silent_reject_error_witness :
    initState.handleCommand { command := some "answer", id := "A" } = (initState, none) ∧
    initState.handleCommand { command := some "reject", id := "A" } =
      (initState, some errorResponse) :=
  c4_answer_silent_reject_error initState "A" (mkOperator "A")
    (by decide) (by decide) (by decide)

/-- C1: refutation at a concrete input.  From startup, `call(1)` rings
operator A with operator B Available; after `reject(A)` the re-run
assignment scans the pool from the front and finds A — just freed by the
rejection — Available first, so call 1 is reassigned to A, not to B as the
claim states: B is still Available and idle while call 1 points at "A". -/
theorem c1_reject_goes_back_to_rejecter_cex :
    (sCall1.handleCommand { command := some "reject", id := "A" }).2 =
      some (Response.msgs
        ["Call 1 rejected by operator A", "Call 1 ringing for operator A"]) ∧
    getRef (sCall1.handleCommand { command := some "reject", id := "A" }).1.heap 0 =
      some { id := "1", answered := false, assignedOperator := some "A" } ∧
    findOp (sCall1.handleCommand { command := some "reject", id := "A" }).1.operators "B" =
      some { id := "B", state := OpState.available, currentCall := none } :=
  ⟨by decide, by decide, by decide⟩

/-- C1 amended: with operator A Ringing on the call and operator B Available,
`reject(A)` disarms the old timer, clears the links, and immediately
reassigns the call — but to A itself, the first Available operator in pool
order after being freed, arming a new live timer under the call's id; B is
left untouched and the Wait Queue is unchanged. -/
theorem c1_reject_reassigns_to_first_available (s : QMState) (r : Nat) (c : CallObj)
    (t : TimerObj)
    (hops : s.operators =
      [{ id := "A", state := OpState.ringing, currentCall := some r },
       { id := "B", state := OpState.available, currentCall := none }])
    (hC : getRef s.heap r = some c)
    (hT : lookupKey s.callTimers c.id = some t) (htf : t.fired = false) :
    (s.handleCommand { command := some "reject", id := "A" }).2 =
      some (Response.msgs ["Call " ++ c.id ++ " rejected by operator " ++ "A",
        "Call " ++ c.id ++ " ringing for operator " ++ "A"]) ∧
    (s.handleCommand { command := some "reject", id := "A" }).1.operators =
      [{ id := "A", state := OpState.ringing, currentCall := some r },
       { id := "B", state := OpState.available, currentCall := none }] ∧
    getRef (s.handleCommand { command := some "reject", id := "A" }).1.heap r =
      some { c with assignedOperator := some "A" } ∧
    (s.handleCommand { command := some "reject", id := "A" }).1.callQueue = s.callQueue ∧
    lookupKey (s.handleCommand { command := some "reject", id := "A" }).1.callTimers c.id =
      some { callId := c.id, operatorId := "A", fired := false } := by
  have hO : findOp s.operators "A" =
      some { id := "A", state := OpState.ringing, currentCall := some r } := by
    simp [hops, findOp]
  have hvalid := checkForValidId_of_op s "A" _ hO
  have hD : s.disableTimeOut
      (some { id := "A", state := OpState.ringing, currentCall := some r }) =
      ({ s with callTimers := eraseKey s.callTimers c.id }, false) := by
    simp [QMState.disableTimeOut, hC, hT, htf]
  have hupd : updateOp s.operators "A"
      (fun x => { x with state := OpState.available, currentCall := none }) =
      [{ id := "A", state := OpState.available, currentCall := none },
       { id := "B", state := OpState.available, currentCall := none }] := by
    simp [hops, updateOp]
  have hscan : assignScan r
      [{ id := "A", state := OpState.available, currentCall := none },
       { id := "B", state := OpState.available, currentCall := none }] =
      some ([{ id := "A", state := OpState.ringing, currentCall := some r },
        { id := "B", state := OpState.available, currentCall := none }], "A") := by
    simp [assignScan]
  have hg1 : getRef (setRef s.heap r { c with assignedOperator := none }) r =
      some { c with assignedOperator := none } := getRef_setRef_self _ _ _ _ hC
  have hg2 : getRef (setRef (setRef s.heap r { c with assignedOperator := none }) r
      { c with assignedOperator := some "A" }) r =
      some { c with assignedOperator := some "A" } := getRef_setRef_self _ _ _ _ hg1
  refine ⟨?_, ?_, ?_, ?_, ?_⟩ <;>
    simp [QMState.handleCommand, QMState.handleReject, QMState.assignCallToOperator,
      hvalid, hO, hD, hC, hg1, hg2, hupd, hscan, lookupKey_insertKey_self]

/-- C1 witness: the amended reassignment behavior evaluated on the concrete
`call(1)`; `reject(A)` scenario. -/
theorem c1_reject_reassigns_to_first_available_witness :
    (sCall1.handleCommand { command := some "reject", id := "A" }).1.operators =
      [{ id := "A", state := OpState.ringing, currentCall := some 0 },
       { id := "B", state := OpState.available, currentCall := none }] ∧
    (sCall1.handleCommand { command := some "reject", id := "A" }).1.callQueue =
      sCall1.callQueue :=
  ⟨(c1_reject_reassigns_to_first_available sCall1 0
      { id := "1", answered := false, assignedOperator := some "A" }
      { callId := "1", operatorId := "A", fired := false }
      (by decide) (by decide) (by decide) (by decide)).2.1,
   (c1_reject_reassigns_to_first_available sCall1 0
      { id := "1", answered := false, assignedOperator := some "A" }
      { callId := "1", operatorId := "A", fired := false }
      (by decide) (by decide) (by decide) (by decide)).2.2.2.1⟩

/-- C6: assignment is deterministic in pool construction order — the scan
gives the call to the first Available operator, skipping every earlier
non-Available one — and concretely from startup with A and B Available:
`call(1)` rings A, `call(2)` rings B, `call(3)` is queued in Waiting state
(no operator link, not answered) with the Wait Queue equal to [call 3]. -/
theorem c6_deterministic_pool_order :
    (∀ (ref : Nat) (pre : List Operator) (o : Operator) (rest : List Operator),
      (∀ p ∈ pre, p.state ≠ OpState.available) → o.state = OpState.available →
      assignScan ref (pre ++ o :: rest) =
        some (pre ++ { o with state := OpState.ringing, currentCall := some ref } :: rest,
          o.id)) ∧
    ((initState.handleCommand { command := some "call", id := "1" }).2 =
        some (Response.msgs ["Call 1 received", "Call 1 ringing for operator A"]) ∧
      (sCall1.handleCommand { command := some "call", id := "2" }).2 =
        some (Response.msgs ["Call 2 received", "Call 2 ringing for operator B"]) ∧
      (sCall12.handleCommand { command := some "call", id := "3" }).2 =
        some (Response.msgs ["Call 3 received", "Call 3 waiting in queue"]) ∧
      sCall123.callQueue = [2] ∧
      getRef sCall123.heap 2 =
        some { id := "3", answered := false, assignedOperator := none } ∧
      sCall123.operators =
        [{ id := "A", state := OpState.ringing, currentCall := some 0 },
         { id := "B", state := OpState.ringing, currentCall := some 1 }]) :=
  ⟨assignScan_first,
   by decide, by decide, by decide, by decide, by decide, by decide⟩

/-- C6 witness: the first-Available selection applied to a concrete pool in
which the front operator is Busy, so the scan picks the second. -/
theorem c6_deterministic_pool_order_witness :
    assignScan 5 ([{ id := "B", state := OpState.busy, currentCall := none }] ++
        mkOperator "A" :: []) =
      some ([{ id := "B", state := OpState.busy, currentCall := none }] ++
        { mkOperator "A" with state := OpState.ringing, currentCall := some 5 } :: [],
        (mkOperator "A").id) :=
  c6_deterministic_pool_order.1 5 [{ id := "B", state := OpState.busy, currentCall := none }]
    (mkOperator "A") [] (by decide) (by decide)

/-- C3: effects of the ring timeout firing on a state with an active call,
its operator, and a live armed timer for the pair.  The call is removed from
the active registry and never requeued (its operator link is cleared, the
call record survives only on the heap); the "ignored by operator" line is
emitted; if the Wait Queue is empty the operator ends Available, and if it is
non-empty (so, as in every reachable such state, no other operator is
Available) its head is popped and handed to the freed operator, ending
Ringing on the head with a fresh live timer armed under the head's id.  In
both cases the fired timer's registry entry is now marked fired, so the
firing precondition (a live entry) cannot hold a second time — the timeout
fires at most once per arming. -/
theorem c3_timeout_processing (s : QMState) (callId operatorId : String) (r : Nat)
    (c : CallObj) (o : Operator)
    (hA : lookupKey s.activeCalls callId = some r)
    (hcountA : countKey s.activeCalls callId ≤ 1)
    (hC : getRef s.heap r = some c)
    (hO : findOp s.operators operatorId = some o)
    (hT : lookupKey s.callTimers callId =
      some { callId := callId, operatorId := operatorId, fired := false })
    (hrq : r ∉ s.callQueue) :
    (s.callQueue = [] →
      lookupKey (s.fireTimeOut callId operatorId).1.activeCalls callId = none ∧
      (s.fireTimeOut callId operatorId).1.callQueue = [] ∧
      getRef (s.fireTimeOut callId operatorId).1.heap r =
        some { c with assignedOperator := none } ∧
      findOp (s.fireTimeOut callId operatorId).1.operators operatorId =
        some { id := operatorId, state := OpState.available, currentCall := none } ∧
      lookupKey (s.fireTimeOut callId operatorId).1.callTimers callId =
        some { callId := callId, operatorId := operatorId, fired := true } ∧
      (s.fireTimeOut callId operatorId).2 =
        some (Response.msgs
          ["Call " ++ callId ++ " ignored by operator " ++ operatorId])) ∧
    (∀ q rest qc, s.callQueue = q :: rest → getRef s.heap q = some qc → q ≠ r →
      qc.id ≠ callId →
      (∀ p ∈ s.operators, p.id ≠ operatorId → p.state ≠ OpState.available) →
      lookupKey (s.fireTimeOut callId operatorId).1.activeCalls callId = none ∧
      (s.fireTimeOut callId operatorId).1.callQueue = rest ∧
      r ∉ (s.fireTimeOut callId operatorId).1.callQueue ∧
      getRef (s.fireTimeOut callId operatorId).1.heap r =
        some { c with assignedOperator := none } ∧
      findOp (s.fireTimeOut callId operatorId).1.operators operatorId =
        some { id := operatorId, state := OpState.ringing, currentCall := some q } ∧
      lookupKey (s.fireTimeOut callId operatorId).1.callTimers qc.id =
        some { callId := qc.id, operatorId := operatorId, fired := false } ∧
      lookupKey (s.fireTimeOut callId operatorId).1.callTimers callId =
        some { callId := callId, operatorId := operatorId, fired := true } ∧
      (s.fireTimeOut callId operatorId).2 =
        some (Response.msgs
          ["Call " ++ callId ++ " ignored by operator " ++ operatorId,
           "Call " ++ qc.id ++ " ringing for operator " ++ operatorId])) := by
  have hfire : s.fireTimeOut callId operatorId =
      QMState.handleTimeOut
        { s with
          callTimers :=
            updateKey s.callTimers callId (fun x => { x with fired := true }) }
        callId operatorId := rfl
  constructor
  · intro hqe
    rw [hfire, handleTimeOut_eq_nil
      { s with
        callTimers :=
          updateKey s.callTimers callId (fun x => { x with fired := true }) }
      callId operatorId r c o hA hC hO hqe]
    refine ⟨?_, rfl, ?_, ?_, ?_, rfl⟩
    · exact lookupKey_eraseKey_self _ _ hcountA
    · exact getRef_setRef_self _ _ _ _ hC
    · rw [findOp_updateOp_self s.operators operatorId _ o hO rfl]
      have hoid := findOp_id s.operators operatorId o hO
      simp [hoid]
    · rw [lookupKey_updateKey_self, hT]
      rfl
  · intro q rest qc hqc hgq hqr hqcid hother
    obtain ⟨ops2, hscan, hfind⟩ :=
      assignScan_after_free q operatorId
        (fun x => { x with state := OpState.available, currentCall := none })
        s.operators o hO hother rfl rfl
    rw [hfire, handleTimeOut_eq_cons
      { s with
        callTimers :=
          updateKey s.callTimers callId (fun x => { x with fired := true }) }
      callId operatorId r c o q rest qc ops2 operatorId hA hC hO hqc hgq hqr hscan]
    refine ⟨?_, rfl, ?_, ?_, ?_, ?_, ?_, rfl⟩
    · exact lookupKey_eraseKey_self _ _ hcountA
    · intro hmem
      exact hrq (by rw [hqc]; exact List.mem_cons_of_mem q hmem)
    · rw [getRef_setRef_ne _ _ _ _ hqr]
      exact getRef_setRef_self _ _ _ _ hC
    · rw [hfind]
      have hoid := findOp_id s.operators operatorId o hO
      simp [hoid]
    · exact lookupKey_insertKey_self _ _ _
    · rw [lookupKey_insertKey_ne _ _ _ _ (Ne.symm hqcid), lookupKey_updateKey_self, hT]
      rfl

/-- C3 witness: the timeout of call 2 on operator B fired in the state
reached by `call(1)`, `call(2)`, `call(3)` from startup, where call 3 waits
in the queue (reference 2) and operator A is Ringing (not Available). -/
theorem c3_timeout_processing_witness :
    lookupKey (sCall123.fireTimeOut "2" "B").1.activeCalls "2" = none ∧
    (sCall123.fireTimeOut "2" "B").1.callQueue = [] ∧
    1 ∉ (sCall123.fireTimeOut "2" "B").1.callQueue ∧
    getRef (sCall123.fireTimeOut "2" "B").1.heap 1 =
      some { id := "2", answered := false, assignedOperator := none } ∧
    findOp (sCall123.fireTimeOut "2" "B").1.operators "B" =
      some { id := "B", state := OpState.ringing, currentCall := some 2 } ∧
    lookupKey (sCall123.fireTimeOut "2" "B").1.callTimers "3" =
      some { callId := "3", operatorId := "B", fired := false } ∧
    lookupKey (sCall123.fireTimeOut "2" "B").1.callTimers "2" =
      some { callId := "2", operatorId := "B", fired := true } ∧
    (sCall123.fireTimeOut "2" "B").2 =
      some (Response.msgs
        ["Call " ++ "2" ++ " ignored by operator " ++ "B",
         "Call " ++ "3" ++ " ringing for operator " ++ "B"]) :=
  (c3_timeout_processing sCall123 "2" "B" 1
      { id := "2", answered := false, assignedOperator := some "B" }
      { id := "B", state := OpState.ringing, currentCall := some 1 }
      (by decide) (by decide) (by decide) (by decide) (by decide) (by decide)).2
    2 [] { id := "3", answered := false, assignedOperator := none }
    (by decide) (by decide) (by decide) (by decide) (by decide)

/-- C8: refutation at a concrete input.  The claim quantifies over every
active call, but hanging up queued call 3 (active, non-Answered, no assigned
operator) does not return the "missed" message: `disableTimeOut(None)`
raises, the engine answers with the generic error, and the call is not
removed from the registry nor is the queue head promoted. -/
theorem c8_hangup_waiting_call_cex :
    (sCall123.handleCommand { command := some "hangup", id := "3" }).2 =
      some (Response.str "Error processing command") ∧
    (sCall123.handleCommand { command := some "hangup", id := "3" }).1.activeCalls =
      sCall123.activeCalls ∧
    (sCall123.handleCommand { command := some "hangup", id := "3" }).1 = sCall123 :=
  ⟨by decide, by decide, by decide⟩

/-- C8 amended: for an active call that has an assigned operator (Ringing or
Answered — in every reachable state the only calls with an operator link),
`hangup` behaves as claimed: "finished" naming the operator when the call
was answered, "missed" otherwise; the operator is freed, the call's timer
entry (if any) is disarmed, the call leaves the active registry while its
heap record survives unmutated, and a non-empty Wait Queue has its head
popped, assigned (necessarily successfully, since the freed operator is
Available), and reported in an appended response line with a fresh live
timer.  For a call with no assigned operator the command instead fails with
the generic error and mutates nothing (see the C9 theorems). -/
theorem c8_hangup_assigned_call (s : QMState) (cid : String) (r : Nat) (c : CallObj)
    (oid : String) (o : Operator)
    (hA : lookupKey s.activeCalls cid = some r)
    (hcountA : countKey s.activeCalls cid ≤ 1)
    (hC : getRef s.heap r = some c)
    (hid : c.id = cid)
    (hAO : c.assignedOperator = some oid)
    (hO : findOp s.operators oid = some o)
    (hCC : o.currentCall = some r)
    (hclean : s.timerClean cid = true)
    (hcountT : countKey s.callTimers cid ≤ 1) :
    (s.callQueue = [] →
      lookupKey (s.handleCommand { command := some "hangup", id := cid }).1.activeCalls cid
        = none ∧
      findOp (s.handleCommand { command := some "hangup", id := cid }).1.operators oid =
        some { id := oid, state := OpState.available, currentCall := none } ∧
      lookupKey (s.handleCommand { command := some "hangup", id := cid }).1.callTimers cid
        = none ∧
      (s.handleCommand { command := some "hangup", id := cid }).1.callQueue = [] ∧
      getRef (s.handleCommand { command := some "hangup", id := cid }).1.heap r = some c ∧
      (s.handleCommand { command := some "hangup", id := cid }).2 =
        some (Response.msgs
          [if c.answered then
             "Call " ++ cid ++ " finished and operator " ++ oid ++ " available"
           else "Call " ++ cid ++ " missed"])) ∧
    (∀ q rest qc, s.callQueue = q :: rest → getRef s.heap q = some qc → q ≠ r →
      qc.id ≠ cid →
      lookupKey (s.handleCommand { command := some "hangup", id := cid }).1.activeCalls cid
        = none ∧
      lookupKey (s.handleCommand { command := some "hangup", id := cid }).1.callTimers cid
        = none ∧
      (s.handleCommand { command := some "hangup", id := cid }).1.callQueue = rest ∧
      getRef (s.handleCommand { command := some "hangup", id := cid }).1.heap r = some c ∧
      ∃ aid,
        getRef (s.handleCommand { command := some "hangup", id := cid }).1.heap q =
          some { qc with assignedOperator := some aid } ∧
        lookupKey (s.handleCommand { command := some "hangup", id := cid }).1.callTimers
          qc.id = some { callId := qc.id, operatorId := aid, fired := false } ∧
        (s.handleCommand { command := some "hangup", id := cid }).2 =
          some (Response.msgs
            [if c.answered then
               "Call " ++ cid ++ " finished and operator " ++ oid ++ " available"
             else "Call " ++ cid ++ " missed",
             "Call " ++ qc.id ++ " ringing for operator " ++ aid])) := by
  have hclean' : s.timerClean c.id = true := by rw [hid]; exact hclean
  obtain ⟨s1, hD, hh, hop, hq, hac, htmN, htk⟩ := disableTimeOut_clean s o r c hCC hC hclean'
  have hcountT' : countKey s.callTimers c.id ≤ 1 := by rw [hid]; exact hcountT
  have htn : lookupKey s1.callTimers cid = none := by
    have h0 := htmN hcountT'
    rwa [hid] at h0
  constructor
  · intro hqe
    rw [handleHangup_eq_nil s s1 cid r c oid o hA hC hAO hO hD hh hop hq hac hqe]
    refine ⟨?_, ?_, ?_, rfl, ?_, rfl⟩
    · exact lookupKey_eraseKey_self _ _ hcountA
    · rw [findOp_updateOp_self s.operators oid _ o hO rfl]
      have hoid := findOp_id s.operators oid o hO
      simp [hoid]
    · exact htn
    · exact hC
  · intro q rest qc hqc hgq hqr hqcid
    have hmem : (fun x => { x with state := OpState.available, currentCall := none }) o ∈
        updateOp s.operators oid
          (fun x => { x with state := OpState.available, currentCall := none }) :=
      mem_updateOp s.operators oid _ o hO
    obtain ⟨ops2, aid, hscan⟩ := assignScan_succeeds q _ _ hmem rfl
    rw [handleHangup_eq_cons s s1 cid r c oid o q rest qc ops2 aid
      hA hC hAO hO hD hh hop hq hac hqc hgq hscan]
    refine ⟨?_, ?_, rfl, ?_, aid, ?_, ?_, rfl⟩
    · exact lookupKey_eraseKey_self _ _ hcountA
    · rw [lookupKey_insertKey_ne _ _ _ _ (Ne.symm hqcid)]
      exact htn
    · rw [getRef_setRef_ne _ _ _ _ hqr]
      exact hC
    · exact getRef_setRef_self _ _ _ _ hgq
    · exact lookupKey_insertKey_self _ _ _

/-- C8 witness: hangup of the answered call 1 in the state reached by
`call(1)`, `call(2)`, `call(3)`, `answer(A)` — "finished" path with a
non-empty queue: call 3 is promoted to the freed operator A. -/
theorem c8_hangup_assigned_call_witness :
    lookupKey (sAns1.handleCommand { command := some "hangup", id := "1" }).1.activeCalls
      "1" = none ∧
    (sAns1.handleCommand { command := some "hangup", id := "1" }).1.callQueue = [] := by
  have h := (c8_hangup_assigned_call sAns1 "1" 0
      { id := "1", answered := true, assignedOperator := some "A" } "A"
      { id := "A", state := OpState.busy, currentCall := some 0 }
      (by decide) (by decide) (by decide) (by decide) (by decide) (by decide) (by decide)
      (by decide) (by decide)).2
    2 [] { id := "3", answered := false, assignedOperator := none }
    (by decide) (by decide) (by decide) (by decide)
  exact ⟨h.1, h.2.2.1⟩

/-- C10: refutation at a concrete input.  In the claim's own scenario —
Wait Queue non-empty ([call 3, call 4]), the hung-up call 3 unassigned, both
operators Ringing — `hangup(3)` does not pop and lose the queue head: the
engine answers with the generic error before reaching the promotion step and
the whole state, Wait Queue included, is unchanged. -/
theorem c10_promotion_not_reached_cex :
    sCall1234.callQueue = [2, 3] ∧
    sCall1234.operators =
      [{ id := "A", state := OpState.ringing, currentCall := some 0 },
       { id := "B", state := OpState.ringing, currentCall := some 1 }] ∧
    sCall1234.handleCommand { command := some "hangup", id := "3" } =
      (sCall1234, some (Response.str "Error processing command")) :=
  ⟨by decide, by decide, by decide⟩

/-- C10 amended: the hangup promotion step never runs without a just-freed
operator, so its assignment never fails and the popped head is never
dropped: whenever `hangup` reaches promotion (the hung-up call had an
assigned operator; otherwise the command errors out with no mutation), the
popped Wait Queue head is assigned to an operator and reported, with the
queue shortened by exactly that head. -/
theorem c10_hangup_promotion_never_drops (s : QMState) (cid : String) (r : Nat)
    (c : CallObj) (oid : String) (o : Operator) (q : Nat) (rest : List Nat) (qc : CallObj)
    (hA : lookupKey s.activeCalls cid = some r)
    (hC : getRef s.heap r = some c)
    (hAO : c.assignedOperator = some oid)
    (hO : findOp s.operators oid = some o)
    (hCC : o.currentCall = some r)
    (hclean : s.timerClean c.id = true)
    (hqc : s.callQueue = q :: rest)
    (hgq : getRef s.heap q = some qc) :
    (s.handleCommand { command := some "hangup", id := cid }).1.callQueue = rest ∧
    ∃ aid,
      getRef (s.handleCommand { command := some "hangup", id := cid }).1.heap q =
        some { qc with assignedOperator := some aid } ∧
      (s.handleCommand { command := some "hangup", id := cid }).2 =
        some (Response.msgs
          [if c.answered then
             "Call " ++ cid ++ " finished and operator " ++ oid ++ " available"
           else "Call " ++ cid ++ " missed",
           "Call " ++ qc.id ++ " ringing for operator " ++ aid]) := by
  obtain ⟨s1, hD, hh, hop, hq, hac, htmN, htk⟩ := disableTimeOut_clean s o r c hCC hC hclean
  have hmem : (fun x => { x with state := OpState.available, currentCall := none }) o ∈
      updateOp s.operators oid
        (fun x => { x with state := OpState.available, currentCall := none }) :=
    mem_updateOp s.operators oid _ o hO
  obtain ⟨ops2, aid, hscan⟩ := assignScan_succeeds q _ _ hmem rfl
  rw [handleHangup_eq_cons s s1 cid r c oid o q rest qc ops2 aid
    hA hC hAO hO hD hh hop hq hac hqc hgq hscan]
  exact ⟨rfl, aid, getRef_setRef_self _ _ _ _ hgq, rfl⟩

/-- C10 witness: the amended promotion guarantee evaluated on the hangup of
answered call 1 with call 3 at the head of the queue. -/
theorem c10_hangup_promotion_never_drops_witness :
    (sAns1.handleCommand { command := some "hangup", id := "1" }).1.callQueue =
      ([] : List Nat) ∧
    ∃ aid,
      getRef (sAns1.handleCommand { command := some "hangup", id := "1" }).1.heap 2 =
        some { id := "3", answered := false, assignedOperator := some aid } ∧
      (sAns1.handleCommand { command := some "hangup", id := "1" }).2 =
        some (Response.msgs
          ["Call " ++ "1" ++ " finished and operator " ++ "A" ++ " available",
           "Call " ++ "3" ++ " ringing for operator " ++ aid]) :=
  c10_hangup_promotion_never_drops sAns1 "1" 0
    { id := "1", answered := true, assignedOperator := some "A" } "A"
    { id := "A", state := OpState.busy, currentCall := some 0 } 2 []
    { id := "3", answered := false, assignedOperator := none }
    (by decide) (by decide) (by decide) (by decide) (by decide) (by decide) (by decide)
    (by decide)

end QueueApp
